import Mathlib

/-!
Verification development for the drag-and-drop project manager
(`src/index.ts`).  The TypeScript source is shallowly embedded:

* JS strings are `List Char`; JS numbers are `JSNum` (an integer or `NaN` —
  the fragment of IEEE numbers this program's logic distinguishes);
* the validator `validate` is a direct transcription of the source function;
* the observable store (`ProjectState.addProject`) is embedded over an
  explicit memory `Mem` of array objects and project objects, so that the
  reference semantics of `this.projects.slice()` (a shallow copy: a fresh
  array object whose elements are the same project references) is captured
  faithfully;
* the input component's `getUserInput`/`submitHandler` become pure functions
  from field contents to an optional forwarded triple plus store effects;
* constructor lifecycles are embedded as phase traces.
-/

namespace DnD

/-- Project status, from the `ProjectStatus` enum in `src/index.ts`. -/
inductive ProjectStatus where
  | Active
  | Finished
deriving DecidableEq, Repr

/-- JS strings are modelled as lists of characters. -/
abbrev Str := List Char

/-- The fragment of JS numbers that the program's logic distinguishes:
an integer value or `NaN` (the result of coercing a non-numeric string). -/
inductive JSNum where
  | nan
  | int (i : Int)
deriving DecidableEq, Repr

/-- JS `a >= b`: false whenever either side is `NaN`. -/
def jsGe : JSNum → JSNum → Bool
  | JSNum.int a, JSNum.int b => decide (b ≤ a)
  | _, _ => false

/-- JS `a <= b`: false whenever either side is `NaN`. -/
def jsLe : JSNum → JSNum → Bool
  | JSNum.int a, JSNum.int b => decide (a ≤ b)
  | _, _ => false

/-- Whitespace characters stripped by JS `String.prototype.trim`
(restricted to the ASCII whitespace the program can encounter). -/
def jsIsWS (c : Char) : Bool :=
  c == ' ' || c == '\t' || c == '\n' || c == '\r'

/-- JS `String.prototype.trim`: drop whitespace from both ends. -/
def jsTrim (s : Str) : Str :=
  ((s.dropWhile jsIsWS).reverse.dropWhile jsIsWS).reverse

/-- Decimal digit to character. -/
def digitToChar (d : Nat) : Char :=
  match d with
  | 0 => '0'
  | 1 => '1'
  | 2 => '2'
  | 3 => '3'
  | 4 => '4'
  | 5 => '5'
  | 6 => '6'
  | 7 => '7'
  | 8 => '8'
  | _ + 9 => '9'

/-- Fuelled accumulator loop producing the decimal digits of `n`. -/
def natToCharsCore : Nat → Nat → Str → Str
  | 0, _, acc => acc
  | fuel + 1, n, acc =>
    if n = 0 then acc
    else natToCharsCore fuel (n / 10) (digitToChar (n % 10) :: acc)

/-- Decimal character representation of a natural number. -/
def natToChars (n : Nat) : Str :=
  if n = 0 then ['0'] else natToCharsCore n n []

/-- Decimal character representation of an integer (JS `Number.toString`). -/
def intToChars : Int → Str
  | Int.ofNat m => natToChars m
  | Int.negSucc m => '-' :: natToChars (m + 1)

/-- JS `Number.prototype.toString` on our number fragment:
`NaN` prints as `"NaN"`, integers print in decimal. -/
def jsNumToChars : JSNum → Str
  | JSNum.nan => ['N', 'a', 'N']
  | JSNum.int i => intToChars i

/-- The `string | number` union type of the `Validatable.value` field. -/
inductive JSValue where
  | str (s : Str)
  | num (n : JSNum)
deriving DecidableEq, Repr

/-- JS `value.toString()` on a `string | number` value. -/
def jsToChars : JSValue → Str
  | JSValue.str s => s
  | JSValue.num n => jsNumToChars n

/-- The `Validatable` interface from `src/index.ts`: a value together with
optional rule fields (absent fields are `none`). -/
structure Validatable where
  value : JSValue
  required : Option Bool := none
  minLength : Option JSNum := none
  maxLength : Option JSNum := none
  min : Option JSNum := none
  max : Option JSNum := none
deriving DecidableEq, Repr

/-- Direct transcription of `validate` from `src/index.ts` (lines 115–153):
a running conjunction `isValid`, updated by each configured rule, where
`minLength`/`maxLength` fire only on string values and `min`/`max` only on
number values, and `required` tests the trimmed `toString` for non-emptiness. -/
def validate (validatableInput : Validatable) : Bool :=
  let isValid := true
  let isValid :=
    if validatableInput.required.getD false then
      isValid && ((jsTrim (jsToChars validatableInput.value)).length != 0)
    else isValid
  let isValid :=
    match validatableInput.minLength, validatableInput.value with
    | some ml, JSValue.str s => isValid && jsGe (JSNum.int (s.length : Int)) ml
    | _, _ => isValid
  let isValid :=
    match validatableInput.maxLength, validatableInput.value with
    | some ml, JSValue.str s => isValid && jsLe (JSNum.int (s.length : Int)) ml
    | _, _ => isValid
  let isValid :=
    match validatableInput.min, validatableInput.value with
    | some mn, JSValue.num n => isValid && jsGe n mn
    | _, _ => isValid
  let isValid :=
    match validatableInput.max, validatableInput.value with
    | some mx, JSValue.num n => isValid && jsLe n mx
    | _, _ => isValid
  isValid

/-- Spec-side sub-check (from the spec's words, for comparison with the
source's `validate`): the `required` rule — the value's string form, trimmed,
must be non-empty; vacuously true when not configured. -/
def requiredOk (v : Validatable) : Bool :=
  if v.required.getD false then !(jsTrim (jsToChars v.value)).isEmpty else true

/-- Spec-side sub-check: `minLength` applies only when the value is textual. -/
def minLengthOk (v : Validatable) : Bool :=
  match v.minLength, v.value with
  | some ml, JSValue.str s => jsGe (JSNum.int (s.length : Int)) ml
  | _, _ => true

/-- Spec-side sub-check: `maxLength` applies only when the value is textual. -/
def maxLengthOk (v : Validatable) : Bool :=
  match v.maxLength, v.value with
  | some ml, JSValue.str s => jsLe (JSNum.int (s.length : Int)) ml
  | _, _ => true

/-- Spec-side sub-check: `min` applies only when the value is numeric. -/
def minOk (v : Validatable) : Bool :=
  match v.min, v.value with
  | some mn, JSValue.num n => jsGe n mn
  | _, _ => true

/-- Spec-side sub-check: `max` applies only when the value is numeric. -/
def maxOk (v : Validatable) : Bool :=
  match v.max, v.value with
  | some mx, JSValue.num n => jsLe n mx
  | _, _ => true

/-- A `Project` record (`class Project` in `src/index.ts`). -/
structure ProjectObj where
  id : Str
  title : Str
  description : Str
  people : JSNum
  status : ProjectStatus
deriving DecidableEq, Repr

/-- Explicit memory of JS objects: array objects (lists of project
references) and project objects.  A reference is an index; allocation
appends.  This captures the reference semantics of
`this.projects.slice()` — a fresh array object sharing its elements. -/
structure Mem where
  arrays : List (List Nat)
  objs : List ProjectObj
deriving DecidableEq, Repr

/-- Read an array object (empty for a dangling reference). -/
def readArr (m : Mem) (r : Nat) : List Nat := (m.arrays[r]?).getD []

/-- Overwrite an array object in place (models JS array mutation). -/
def writeArr (m : Mem) (r : Nat) (v : List Nat) : Mem :=
  { m with arrays := m.arrays.set r v }

/-- Read a project object. -/
def readObj (m : Mem) (r : Nat) : Option ProjectObj := m.objs[r]?

/-- Overwrite a project object in place (models mutating a `Project`). -/
def writeObj (m : Mem) (r : Nat) (p : ProjectObj) : Mem :=
  { m with objs := m.objs.set r p }

/-- Allocate a fresh array object; returns the new memory and reference. -/
def allocArr (m : Mem) (v : List Nat) : Mem × Nat :=
  ({ m with arrays := m.arrays ++ [v] }, m.arrays.length)

/-- Allocate a fresh project object. -/
def allocObj (m : Mem) (p : ProjectObj) : Mem × Nat :=
  ({ m with objs := m.objs ++ [p] }, m.objs.length)

/-- The project records visible through an array of references
(dangling references are skipped). -/
def viewArr (m : Mem) (r : Nat) : List ProjectObj :=
  (readArr m r).filterMap (readObj m)

/-- `State.addListener`: pushes the listener at the end, so the listener
list is in subscription order (`src/index.ts` lines 51–53). -/
def addListener (listeners : List Nat) (l : Nat) : List Nat :=
  listeners ++ [l]

/-- The notification loop of `ProjectState.addProject` (lines 86–88):
for each registered listener, in order, allocate `this.projects.slice()`
(a fresh array object with the same project references) and invoke the
listener with it.  Listeners are identified abstractly; the returned trace
records each invocation as (listener, snapshot reference). -/
def notifyAll (listeners : List Nat) (storeArr : Nat) (m : Mem) :
    Mem × List (Nat × Nat) :=
  match listeners with
  | [] => (m, [])
  | l :: rest =>
    let a := allocArr m (readArr m storeArr)
    let res := notifyAll rest storeArr a.1
    (res.1, (l, a.2) :: res.2)

/-- `ProjectState.addProject` (`src/index.ts` lines 75–89): construct a new
`Project` with status `Active` and the freshly generated `id` (supplied by
the environment's random source), push its reference onto the authoritative
array `storeArr`, then notify every listener with a slice of the array. -/
def addProject (m : Mem) (storeArr : Nat) (listeners : List Nat)
    (id title description : Str) (people : JSNum) : Mem × List (Nat × Nat) :=
  let alloc := allocObj m ⟨id, title, description, people, ProjectStatus.Active⟩
  let m2 := writeArr alloc.1 storeArr (readArr alloc.1 storeArr ++ [alloc.2])
  notifyAll listeners storeArr m2

/-- The memory of a freshly constructed `ProjectState`: one array object
(the empty authoritative `projects` array, reference 0), no projects. -/
def initMem : Mem := ⟨[[]], []⟩

/-- Run a sequence of `addProject` calls; each call supplies
(generated id, title, description, people). -/
def runAdds (storeArr : Nat) (listeners : List Nat) :
    Mem → List (Str × Str × Str × JSNum) → Mem
  | m, [] => m
  | m, c :: rest =>
    runAdds storeArr listeners
      (addProject m storeArr listeners c.1 c.2.1 c.2.2.1 c.2.2.2).1 rest

/-- Decimal digit value of a character. -/
def digitVal (c : Char) : Option Nat :=
  if c == '0' then some 0 else if c == '1' then some 1
  else if c == '2' then some 2 else if c == '3' then some 3
  else if c == '4' then some 4 else if c == '5' then some 5
  else if c == '6' then some 6 else if c == '7' then some 7
  else if c == '8' then some 8 else if c == '9' then some 9
  else none

/-- Accumulate the value of a digit string; fails on a non-digit. -/
def parseNatAux : Str → Nat → Option Nat
  | [], acc => some acc
  | c :: rest, acc =>
    match digitVal c with
    | some d => parseNatAux rest (acc * 10 + d)
    | none => none

/-- Parse a non-empty all-digit string as a natural number. -/
def parseNatChars : Str → Option Nat
  | [] => none
  | l => parseNatAux l 0

/-- Model of the external JavaScript `Number()` string coercion, restricted
to the integer fragment used by this program: a whitespace-only string
coerces to `0`, an optional-sign decimal-integer literal to its value, and
every other string (including forms outside this integer model, such as
fractional or exponent literals) to `NaN`. -/
def jsNumberOfString (s : Str) : JSNum :=
  match jsTrim s with
  | [] => JSNum.int 0
  | '-' :: rest =>
    match parseNatChars rest with
    | some n => JSNum.int (-(n : Int))
    | none => JSNum.nan
  | '+' :: rest =>
    match parseNatChars rest with
    | some n => JSNum.int (n : Int)
    | none => JSNum.nan
  | t =>
    match parseNatChars t with
    | some n => JSNum.int (n : Int)
    | none => JSNum.nan

/-- The `isTitleValid` rule object built by `ProjectInput.getUserInput`
(`src/index.ts` lines 315–319): required, minLength 5, on the raw value. -/
def titleRule (title : Str) : Validatable :=
  { value := JSValue.str title, required := some true,
    minLength := some (JSNum.int 5) }

/-- The `isDescriptionValid` rule object (lines 321–325):
required, minLength 10, on the raw value. -/
def descriptionRule (description : Str) : Validatable :=
  { value := JSValue.str description, required := some true,
    minLength := some (JSNum.int 10) }

/-- The `isPeopleValid` rule object (lines 327–332):
required, min 1, max 5, on the coerced number. -/
def peopleRule (people : JSNum) : Validatable :=
  { value := JSValue.num people, required := some true,
    min := some (JSNum.int 1), max := some (JSNum.int 5) }

/-- `ProjectInput.getUserInput` (lines 310–343): read the three raw field
values (no trimming in the source), coerce the third with `Number()`,
build the three rule objects and require all three to validate; on any
failure alert the user (external effect) and return nothing, otherwise
return the tuple `[title, description, people]` unchanged. -/
def getUserInput (titleVal descriptionVal peopleVal : Str) :
    Option (Str × Str × JSNum) :=
  let people := jsNumberOfString peopleVal
  if !validate (titleRule titleVal) || !validate (descriptionRule descriptionVal)
      || !validate (peopleRule people) then
    none
  else
    some (titleVal, descriptionVal, people)

/-- `ProjectInput.submitHandler` (lines 346–356) together with `resetForm`:
prevent default (external), run `getUserInput`; when it yields a tuple,
forward it to `ProjectState.addProject` and clear the three fields;
otherwise leave memory, listeners and fields untouched.  The function is
total: no execution path throws. -/
def submitHandler (m : Mem) (storeArr : Nat) (listeners : List Nat) (id : Str)
    (titleField descriptionField peopleField : Str) :
    Mem × List (Nat × Nat) × (Str × Str × Str) :=
  match getUserInput titleField descriptionField peopleField with
  | some (t, d, p) =>
    let res := addProject m storeArr listeners id t d p
    (res.1, res.2, ([], [], []))
  | none => (m, [], (titleField, descriptionField, peopleField))

/-- Lifecycle phases of a view's construction: the base `Component`
constructor instantiates the template clone and attaches it; the subclass
constructor then assigns its own fields and calls `configure` and
`renderContent` in some order. -/
inductive Phase where
  | instantiate
  | attach
  | fieldSetup
  | configure
  | renderContent
deriving DecidableEq, BEq, Repr

/-- Phases run by the base `Component` constructor (lines 164–185):
template lookup/clone/id assignment, then `this.attach(...)`. -/
def componentCtorTrace : List Phase := [Phase.instantiate, Phase.attach]

/-- `ProjectItem` constructor (lines 212–218): `super(...)`, assign
`this.project`, then `this.configure(); this.renderContent();`. -/
def projectItemCtorTrace : List Phase :=
  componentCtorTrace ++ [Phase.fieldSetup, Phase.configure, Phase.renderContent]

/-- `ProjectList` constructor (lines 239–244): `super(...)`, field
initialisers, then `this.renderContent(); this.configure();`. -/
def projectListCtorTrace : List Phase :=
  componentCtorTrace ++ [Phase.fieldSetup, Phase.renderContent, Phase.configure]

/-- `ProjectInput` constructor (lines 289–302): `super(...)`, query the
three input fields, then `this.renderContent(); this.configure();`. -/
def projectInputCtorTrace : List Phase :=
  componentCtorTrace ++ [Phase.fieldSetup, Phase.renderContent, Phase.configure]

/-- The `'active' | 'finished'` discriminator of a `ProjectList`. -/
inductive ProjectTypes where
  | active
  | finished
deriving DecidableEq, Repr

/-- The filter inside the `ProjectList` listener (`src/index.ts` lines
247–253): keep the projects whose status matches the view's type; the
result replaces `this.assignedProjects`. -/
def relevantProjects (type : ProjectTypes) (projects : List ProjectObj) :
    List ProjectObj :=
  projects.filter fun project =>
    match type with
    | ProjectTypes.active => project.status == ProjectStatus.Active
    | ProjectTypes.finished => project.status == ProjectStatus.Finished

/-! ### Memory lemmas -/

theorem readArr_writeArr_self (m : Mem) (r : Nat) (v : List Nat)
    (h : r < m.arrays.length) : readArr (writeArr m r v) r = v := by
  unfold readArr writeArr
  rw [List.getElem?_set_self']
  rw [List.getElem?_eq_getElem h]
  rfl

theorem readArr_writeArr_ne (m : Mem) (r r' : Nat) (v : List Nat)
    (h : r ≠ r') : readArr (writeArr m r v) r' = readArr m r' := by
  unfold readArr writeArr
  rw [List.getElem?_set_ne h]

theorem readArr_allocArr_lt (m : Mem) (v : List Nat) (r : Nat)
    (h : r < m.arrays.length) : readArr (allocArr m v).1 r = readArr m r := by
  unfold readArr allocArr
  rw [List.getElem?_append_left h]

theorem readArr_allocArr_self (m : Mem) (v : List Nat) :
    readArr (allocArr m v).1 m.arrays.length = v := by
  unfold readArr allocArr
  rw [List.getElem?_concat_length]
  rfl

theorem readObj_allocObj_lt (m : Mem) (p : ProjectObj) (r : Nat)
    (h : r < m.objs.length) : readObj (allocObj m p).1 r = readObj m r := by
  unfold readObj allocObj
  rw [List.getElem?_append_left h]

theorem readObj_allocObj_self (m : Mem) (p : ProjectObj) :
    readObj (allocObj m p).1 m.objs.length = some p := by
  unfold readObj allocObj
  rw [List.getElem?_concat_length]

/-- Everything a single notification loop guarantees: it never touches
project objects, only allocates fresh array objects (so existing arrays are
preserved), calls the listeners in list order, hands every listener a fresh
snapshot array whose contents equal the store array at loop entry, and all
snapshot references are pairwise distinct. -/
theorem notifyAll_spec (storeArr : Nat) (listeners : List Nat) :
    ∀ (m : Mem), storeArr < m.arrays.length →
      (notifyAll listeners storeArr m).1.objs = m.objs ∧
      m.arrays.length ≤ (notifyAll listeners storeArr m).1.arrays.length ∧
      (∀ r, r < m.arrays.length →
        readArr (notifyAll listeners storeArr m).1 r = readArr m r) ∧
      (notifyAll listeners storeArr m).2.map Prod.fst = listeners ∧
      (∀ e ∈ (notifyAll listeners storeArr m).2,
        m.arrays.length ≤ e.2 ∧
        e.2 < (notifyAll listeners storeArr m).1.arrays.length ∧
        readArr (notifyAll listeners storeArr m).1 e.2 = readArr m storeArr) ∧
      ((notifyAll listeners storeArr m).2.map Prod.snd).Nodup := by
  induction listeners with
  | nil =>
    intro m h
    exact ⟨rfl, le_refl _, fun r _ => rfl, rfl, by simp [notifyAll], by
      simp [notifyAll]⟩
  | cons l rest ih =>
    intro m h
    have hstep : notifyAll (l :: rest) storeArr m =
        ((notifyAll rest storeArr (allocArr m (readArr m storeArr)).1).1,
          (l, m.arrays.length) ::
            (notifyAll rest storeArr (allocArr m (readArr m storeArr)).1).2) :=
      rfl
    set m1 := (allocArr m (readArr m storeArr)).1 with hm1
    have hm1objs : m1.objs = m.objs := rfl
    have hm1len : m1.arrays.length = m.arrays.length + 1 := by
      simp [hm1, allocArr]
    have hm1lt : storeArr < m1.arrays.length := by omega
    have hm1read : ∀ r, r < m.arrays.length → readArr m1 r = readArr m r :=
      fun r hr => readArr_allocArr_lt m _ r hr
    have hm1self : readArr m1 m.arrays.length = readArr m storeArr :=
      readArr_allocArr_self m _
    obtain ⟨hobjs, hlen, hpres, hfst, hmem, hnd⟩ := ih m1 hm1lt
    rw [hstep]
    dsimp only
    refine ⟨hobjs.trans hm1objs, ?_, ?_, ?_, ?_, ?_⟩
    · omega
    · intro r hr
      rw [hpres r (by omega)]
      exact hm1read r hr
    · simpa using hfst
    · intro e he
      rcases List.mem_cons.mp he with rfl | he'
    -- head entry: the snapshot just allocated
      · refine ⟨le_refl _, by omega, ?_⟩
        rw [hpres m.arrays.length (by omega)]
        exact hm1self
      · obtain ⟨h1, h2, h3⟩ := hmem e he'
        refine ⟨by omega, h2, ?_⟩
        rw [h3]
        exact hm1read storeArr h
    · simp only [List.map_cons]
      refine List.nodup_cons.mpr ⟨?_, hnd⟩
      intro hcontra
      obtain ⟨e, he, heq⟩ := List.mem_map.mp hcontra
      obtain ⟨h1, _, _⟩ := hmem e he
      omega

/-- Looking up project objects is unaffected when two memories agree
pointwise on the references involved. -/
theorem filterMap_readObj_congr (mA mB : Mem) (refs : List Nat)
    (h : ∀ r ∈ refs, readObj mA r = readObj mB r) :
    refs.filterMap (readObj mA) = refs.filterMap (readObj mB) := by
  induction refs with
  | nil => rfl
  | cons a rest ih =>
    rw [List.filterMap_cons, List.filterMap_cons,
      h a (List.mem_cons_self a rest),
      ih fun r hr => h r (List.mem_cons_of_mem a hr)]

/-- Everything one `addProject` call guarantees: the project store gains
exactly the new record (appended at the end, status `Active`, the supplied
fresh id), the authoritative array gains exactly the new reference at the
end, every listener is recorded exactly once in list order, and every
snapshot is a fresh array (reference distinct from the store array and from
all other snapshots) whose visible contents equal the post-append
collection. -/
theorem addProject_main (m : Mem) (storeArr : Nat) (listeners : List Nat)
    (id t d : Str) (p : JSNum) (m' : Mem) (tr : List (Nat × Nat))
    (heq : addProject m storeArr listeners id t d p = (m', tr))
    (hArr : storeArr < m.arrays.length)
    (hWF : ∀ r ∈ readArr m storeArr, r < m.objs.length) :
    m'.objs = m.objs ++ [⟨id, t, d, p, ProjectStatus.Active⟩] ∧
    m.arrays.length ≤ m'.arrays.length ∧
    storeArr < m'.arrays.length ∧
    readArr m' storeArr = readArr m storeArr ++ [m.objs.length] ∧
    readObj m' m.objs.length = some ⟨id, t, d, p, ProjectStatus.Active⟩ ∧
    viewArr m' storeArr
      = viewArr m storeArr ++ [⟨id, t, d, p, ProjectStatus.Active⟩] ∧
    tr.map Prod.fst = listeners ∧
    (∀ e ∈ tr, m.arrays.length ≤ e.2 ∧ e.2 < m'.arrays.length ∧
      readArr m' e.2 = readArr m storeArr ++ [m.objs.length] ∧
      viewArr m' e.2
        = viewArr m storeArr ++ [⟨id, t, d, p, ProjectStatus.Active⟩]) ∧
    (tr.map Prod.snd).Nodup := by
  have hstep : addProject m storeArr listeners id t d p =
      notifyAll listeners storeArr
        (writeArr (allocObj m ⟨id, t, d, p, ProjectStatus.Active⟩).1 storeArr
          (readArr m storeArr ++ [m.objs.length])) := rfl
  set newObj : ProjectObj := ⟨id, t, d, p, ProjectStatus.Active⟩ with hnew
  set m2 := writeArr (allocObj m newObj).1 storeArr
    (readArr m storeArr ++ [m.objs.length]) with hm2
  have hm2objs : m2.objs = m.objs ++ [newObj] := rfl
  have hm2len : m2.arrays.length = m.arrays.length := by
    simp [hm2, writeArr, allocObj]
  have hm2lt : storeArr < m2.arrays.length := by omega
  have hm2read : readArr m2 storeArr = readArr m storeArr ++ [m.objs.length] := by
    rw [hm2]
    exact readArr_writeArr_self _ storeArr _ hArr
  have hmtr : notifyAll listeners storeArr m2 = (m', tr) := by
    rw [← hstep, heq]
  obtain ⟨nobjs, nlen, npres, nfst, nmem, nnd⟩ :=
    notifyAll_spec storeArr listeners m2 hm2lt
  rw [hmtr] at nobjs nlen npres nfst nmem nnd
  dsimp only at nobjs nlen npres nfst nmem nnd
  have hobjs : m'.objs = m.objs ++ [newObj] := nobjs.trans hm2objs
  have hreadObj : ∀ r, r < m.objs.length → readObj m' r = readObj m r := by
    intro r hr
    unfold readObj
    rw [hobjs]
    exact List.getElem?_append_left hr
  have hreadNew : readObj m' m.objs.length = some newObj := by
    unfold readObj
    rw [hobjs]
    exact List.getElem?_concat_length _ _
  have hviewOld : (readArr m storeArr).filterMap (readObj m')
      = (readArr m storeArr).filterMap (readObj m) :=
    filterMap_readObj_congr m' m _ fun r hr => hreadObj r (hWF r hr)
  have hreadStore : readArr m' storeArr
      = readArr m storeArr ++ [m.objs.length] := by
    rw [npres storeArr hm2lt]
    exact hm2read
  have hview : ∀ r, readArr m' r = readArr m storeArr ++ [m.objs.length] →
      viewArr m' r = viewArr m storeArr ++ [newObj] := by
    intro r hr
    unfold viewArr
    rw [hr, List.filterMap_append]
    rw [hviewOld]
    simp [List.filterMap_cons, hreadNew]
  refine ⟨hobjs, ?_, ?_, hreadStore, hreadNew,
    hview storeArr hreadStore, nfst, ?_, nnd⟩
  · omega
  · omega
  · intro e he
    obtain ⟨h1, h2, h3⟩ := nmem e he
    rw [hm2read] at h3
    exact ⟨by omega, h2, h3, hview e.2 h3⟩

/-- Running a sequence of `addProject` calls preserves well-formedness of
the store and appends exactly one `Active` record per call, in call order,
carrying the id supplied for that call. -/
theorem runAdds_spec (storeArr : Nat) (listeners : List Nat) :
    ∀ (calls : List (Str × Str × Str × JSNum)) (m : Mem),
      storeArr < m.arrays.length →
      (∀ r ∈ readArr m storeArr, r < m.objs.length) →
      storeArr < (runAdds storeArr listeners m calls).arrays.length ∧
      (∀ r ∈ readArr (runAdds storeArr listeners m calls) storeArr,
        r < (runAdds storeArr listeners m calls).objs.length) ∧
      viewArr (runAdds storeArr listeners m calls) storeArr
        = viewArr m storeArr ++ calls.map
            (fun c => ⟨c.1, c.2.1, c.2.2.1, c.2.2.2, ProjectStatus.Active⟩) := by
  intro calls
  induction calls with
  | nil =>
    intro m h1 h2
    exact ⟨h1, h2, by simp [runAdds]⟩
  | cons c rest ih =>
    intro m h1 h2
    have hstep : runAdds storeArr listeners m (c :: rest)
        = runAdds storeArr listeners
            (addProject m storeArr listeners c.1 c.2.1 c.2.2.1 c.2.2.2).1
            rest := rfl
    obtain ⟨hobjs, _, hlt, hread, _, hview, _, _, _⟩ :=
      addProject_main m storeArr listeners c.1 c.2.1 c.2.2.1 c.2.2.2
        (addProject m storeArr listeners c.1 c.2.1 c.2.2.1 c.2.2.2).1
        (addProject m storeArr listeners c.1 c.2.1 c.2.2.1 c.2.2.2).2
        rfl h1 h2
    have hWF2 : ∀ r ∈ readArr
        (addProject m storeArr listeners c.1 c.2.1 c.2.2.1 c.2.2.2).1 storeArr,
        r < (addProject m storeArr listeners c.1 c.2.1 c.2.2.1 c.2.2.2).1.objs.length := by
      intro r hr
      rw [hread] at hr
      rw [hobjs, List.length_append, List.length_singleton]
      rcases List.mem_append.mp hr with h' | h'
      · exact Nat.lt_succ_of_lt (h2 r h')
      · rw [List.mem_singleton.mp h']
        exact Nat.lt_succ_self _
    obtain ⟨g1, g2, g3⟩ := ih _ hlt hWF2
    rw [hstep]
    refine ⟨g1, g2, ?_⟩
    rw [g3, hview, List.map_cons, List.append_assoc]
    rfl

/-! ### The decimal form of a number is never whitespace and never empty -/

theorem jsIsWS_digitToChar (d : Nat) : jsIsWS (digitToChar d) = false := by
  unfold digitToChar
  rcases d with _ | _ | _ | _ | _ | _ | _ | _ | _ | d <;> rfl

theorem natToCharsCore_nonws (fuel : Nat) :
    ∀ (n : Nat) (acc : Str), (∀ c ∈ acc, jsIsWS c = false) →
      ∀ c ∈ natToCharsCore fuel n acc, jsIsWS c = false := by
  induction fuel with
  | zero => intro n acc h c hc; exact h c hc
  | succ fuel ih =>
    intro n acc h c hc
    unfold natToCharsCore at hc
    split at hc
    · exact h c hc
    · refine ih (n / 10) (digitToChar (n % 10) :: acc) ?_ c hc
      intro c' hc'
      rcases List.mem_cons.mp hc' with rfl | h'
      · exact jsIsWS_digitToChar _
      · exact h c' h'

theorem natToCharsCore_length (fuel : Nat) :
    ∀ (n : Nat) (acc : Str),
      acc.length ≤ (natToCharsCore fuel n acc).length := by
  induction fuel with
  | zero => intro n acc; exact le_refl _
  | succ fuel ih =>
    intro n acc
    unfold natToCharsCore
    split
    · exact le_refl _
    · calc acc.length ≤ (digitToChar (n % 10) :: acc).length := by simp
        _ ≤ _ := ih (n / 10) _

theorem natToChars_nonws (n : Nat) : ∀ c ∈ natToChars n, jsIsWS c = false := by
  unfold natToChars
  split
  · intro c hc
    rw [List.mem_singleton.mp hc]
    rfl
  · exact natToCharsCore_nonws n n [] (by simp)

theorem natToChars_ne_nil (n : Nat) : natToChars n ≠ [] := by
  unfold natToChars
  split
  · simp
  · rename_i hn
    obtain ⟨k, rfl⟩ := Nat.exists_eq_succ_of_ne_zero hn
    intro hcontra
    have h1 : natToCharsCore (k + 1) (k + 1) []
        = natToCharsCore k ((k + 1) / 10) [digitToChar ((k + 1) % 10)] := by
      show (if k + 1 = 0 then []
        else natToCharsCore k ((k + 1) / 10) [digitToChar ((k + 1) % 10)]) = _
      rw [if_neg hn]
    have h2 := natToCharsCore_length k ((k + 1) / 10)
      [digitToChar ((k + 1) % 10)]
    rw [← h1, hcontra] at h2
    simp at h2

theorem jsNumToChars_nonws (n : JSNum) :
    ∀ c ∈ jsNumToChars n, jsIsWS c = false := by
  cases n with
  | nan =>
    intro c hc
    simp only [jsNumToChars, List.mem_cons, List.not_mem_nil, or_false] at hc
    rcases hc with rfl | rfl | rfl <;> rfl
  | int i =>
    cases i with
    | ofNat m => exact natToChars_nonws m
    | negSucc m =>
      intro c hc
      rcases List.mem_cons.mp hc with rfl | h
      · rfl
      · exact natToChars_nonws (m + 1) c h

theorem jsNumToChars_ne_nil (n : JSNum) : jsNumToChars n ≠ [] := by
  cases n with
  | nan => simp [jsNumToChars]
  | int i =>
    cases i with
    | ofNat m => exact natToChars_ne_nil m
    | negSucc m => simp [jsNumToChars, intToChars]

theorem dropWhile_of_nonws (p : Char → Bool) (l : Str)
    (h : ∀ c ∈ l, p c = false) : l.dropWhile p = l := by
  cases l with
  | nil => rfl
  | cons a rest =>
    rw [List.dropWhile_cons, h a (List.mem_cons_self a rest)]
    simp

theorem jsTrim_of_nonws (l : Str) (h : ∀ c ∈ l, jsIsWS c = false) :
    jsTrim l = l := by
  unfold jsTrim
  rw [dropWhile_of_nonws jsIsWS l h]
  rw [dropWhile_of_nonws jsIsWS l.reverse
    fun c hc => h c (List.mem_reverse.mp hc)]
  exact List.reverse_reverse l

theorem jsTrim_jsNumToChars (n : JSNum) :
    jsTrim (jsNumToChars n) = jsNumToChars n :=
  jsTrim_of_nonws _ (jsNumToChars_nonws n)

theorem jsNumToChars_trim_length_ne (n : JSNum) :
    ((jsTrim (jsNumToChars n)).length != 0) = true := by
  rw [jsTrim_jsNumToChars]
  cases h : jsNumToChars n with
  | nil => exact absurd h (jsNumToChars_ne_nil n)
  | cons a rest => rfl

/-! ### Claim theorems -/

/-- C1: every call to `addProject` with a title, description and people
count grows the authoritative collection by exactly one element, the new
`Project` is appended at the end with status `Active` and the freshly
generated id, and every listener registered before the call is invoked
exactly once (the trace lists the registered listeners, in order) with a
snapshot whose visible contents equal the post-append collection with the
new item last. -/
theorem addItem_appends_and_notifies
    (m : Mem) (storeArr : Nat) (listeners : List Nat)
    (id t d : Str) (p : JSNum) (m' : Mem) (tr : List (Nat × Nat))
    (heq : addProject m storeArr listeners id t d p = (m', tr))
    (hArr : storeArr < m.arrays.length)
    (hWF : ∀ r ∈ readArr m storeArr, r < m.objs.length) :
    viewArr m' storeArr
      = viewArr m storeArr ++ [⟨id, t, d, p, ProjectStatus.Active⟩] ∧
    (viewArr m' storeArr).length = (viewArr m storeArr).length + 1 ∧
    readObj m' m.objs.length = some ⟨id, t, d, p, ProjectStatus.Active⟩ ∧
    tr.map Prod.fst = listeners ∧
    ∀ e ∈ tr, viewArr m' e.2
      = viewArr m storeArr ++ [⟨id, t, d, p, ProjectStatus.Active⟩] := by
  obtain ⟨_, _, _, _, h5, h6, h7, h8, _⟩ :=
    addProject_main m storeArr listeners id t d p m' tr heq hArr hWF
  refine ⟨h6, ?_, h5, h7, fun e he => (h8 e he).2.2.2⟩
  rw [h6, List.length_append, List.length_singleton]

theorem addItem_appends_and_notifies_witness :
    (addProject initMem 0 [0, 1] ['i'] ['t'] ['d'] (JSNum.int 1)).2.map
      Prod.fst = [0, 1] :=
  (addItem_appends_and_notifies initMem 0 [0, 1] ['i'] ['t'] ['d']
    (JSNum.int 1)
    (addProject initMem 0 [0, 1] ['i'] ['t'] ['d'] (JSNum.int 1)).1
    (addProject initMem 0 [0, 1] ['i'] ['t'] ['d'] (JSNum.int 1)).2
    rfl (by decide) (by decide)).2.2.2.1

/-- C2: whenever at least one of the three validation rules fails, the
submit handler leaves the store memory unchanged (no item created), invokes
no listener (empty trace) and leaves the three fields untouched; the
handler is a total function, so it does not throw. -/
theorem invalid_submission_no_state_change
    (m : Mem) (storeArr : Nat) (listeners : List Nat) (id : Str)
    (tf df pf : Str)
    (h : validate (titleRule tf) = false ∨
      validate (descriptionRule df) = false ∨
      validate (peopleRule (jsNumberOfString pf)) = false) :
    submitHandler m storeArr listeners id tf df pf = (m, [], (tf, df, pf)) := by
  have hnone : getUserInput tf df pf = none := by
    unfold getUserInput
    rcases h with h | h | h <;> simp [h]
  unfold submitHandler
  rw [hnone]

theorem invalid_submission_no_state_change_witness :
    submitHandler initMem 0 [0] ['i'] ['a', 'b'] ['a'] ['0']
      = (initMem, [], (['a', 'b'], ['a'], ['0'])) :=
  invalid_submission_no_state_change initMem 0 [0] ['i'] ['a', 'b'] ['a']
    ['0'] (Or.inl (by decide))

/-- C3: one notification calls the listeners exactly in subscription order
(the listener list, which `addListener` extends at the end), and every
listener observes an identical snapshot: the visible contents of each
snapshot equal the post-append collection, a copy taken after the append
and unchanged while the notification loop runs. -/
theorem notification_order_and_identical_snapshots
    (m : Mem) (storeArr : Nat) (listeners : List Nat)
    (id t d : Str) (p : JSNum) (m' : Mem) (tr : List (Nat × Nat))
    (heq : addProject m storeArr listeners id t d p = (m', tr))
    (hArr : storeArr < m.arrays.length)
    (hWF : ∀ r ∈ readArr m storeArr, r < m.objs.length) :
    tr.map Prod.fst = listeners ∧
    (∀ e ∈ tr, viewArr m' e.2 = viewArr m' storeArr) ∧
    viewArr m' storeArr
      = viewArr m storeArr ++ [⟨id, t, d, p, ProjectStatus.Active⟩] := by
  obtain ⟨_, _, _, _, _, h6, h7, h8, _⟩ :=
    addProject_main m storeArr listeners id t d p m' tr heq hArr hWF
  exact ⟨h7, fun e he => ((h8 e he).2.2.2).trans h6.symm, h6⟩

theorem notification_order_and_identical_snapshots_witness :
    (addProject initMem 0 [5] ['i'] ['t'] ['d'] (JSNum.int 2)).2.map
      Prod.fst = [5] :=
  (notification_order_and_identical_snapshots initMem 0 [5] ['i'] ['t']
    ['d'] (JSNum.int 2)
    (addProject initMem 0 [5] ['i'] ['t'] ['d'] (JSNum.int 2)).1
    (addProject initMem 0 [5] ['i'] ['t'] ['d'] (JSNum.int 2)).2
    rfl (by decide) (by decide)).1

/-- C4 counterexample: the claim that mutating a snapshot's elements does
not affect the Store fails.  In the concrete run below, subscriber 0
receives snapshot array 1 whose single element is project reference 0 —
the same reference held by the authoritative array.  Mutating that project
object in place (as `snapshot[0].title = ...` would) changes the store's
visible collection and the other subscriber's snapshot contents. -/
theorem snapshot_element_mutation_reaches_store :
    (addProject initMem 0 [0, 1] ['i'] ['t'] ['d'] (JSNum.int 1)).2
      = [(0, 1), (1, 2)] ∧
    readArr (addProject initMem 0 [0, 1] ['i'] ['t'] ['d'] (JSNum.int 1)).1 1
      = [0] ∧
    viewArr (writeObj
        (addProject initMem 0 [0, 1] ['i'] ['t'] ['d'] (JSNum.int 1)).1 0
        ⟨['i'], ['x'], ['d'], JSNum.int 1, ProjectStatus.Active⟩) 0
      ≠ viewArr (addProject initMem 0 [0, 1] ['i'] ['t'] ['d']
        (JSNum.int 1)).1 0 ∧
    viewArr (writeObj
        (addProject initMem 0 [0, 1] ['i'] ['t'] ['d'] (JSNum.int 1)).1 0
        ⟨['i'], ['x'], ['d'], JSNum.int 1, ProjectStatus.Active⟩) 2
      ≠ viewArr (addProject initMem 0 [0, 1] ['i'] ['t'] ['d']
        (JSNum.int 1)).1 2 := by
  decide

/-- C4 amended: `slice()` does isolate the snapshot's structure — each
snapshot is a fresh array object, distinct from the authoritative array
and from every other snapshot, so overwriting a snapshot array (adding,
removing or replacing entries) changes neither the store's array nor any
other snapshot's array.  Only in-place mutation of the shared project
elements leaks (see the counterexample). -/
theorem snapshot_structural_mutation_isolated
    (m : Mem) (storeArr : Nat) (listeners : List Nat)
    (id t d : Str) (p : JSNum) (m' : Mem) (tr : List (Nat × Nat))
    (heq : addProject m storeArr listeners id t d p = (m', tr))
    (hArr : storeArr < m.arrays.length)
    (hWF : ∀ r ∈ readArr m storeArr, r < m.objs.length) :
    (tr.map Prod.snd).Nodup ∧
    ∀ e ∈ tr, e.2 ≠ storeArr ∧
      ∀ v : List Nat,
        readArr (writeArr m' e.2 v) storeArr = readArr m' storeArr ∧
        ∀ r : Nat, r ≠ e.2 → readArr (writeArr m' e.2 v) r = readArr m' r := by
  obtain ⟨_, _, _, _, _, _, _, h8, h9⟩ :=
    addProject_main m storeArr listeners id t d p m' tr heq hArr hWF
  refine ⟨h9, fun e he => ?_⟩
  obtain ⟨hb, _, _, _⟩ := h8 e he
  have hne : e.2 ≠ storeArr := by omega
  exact ⟨hne, fun v =>
    ⟨readArr_writeArr_ne m' e.2 storeArr v hne,
      fun r hr => readArr_writeArr_ne m' e.2 r v (Ne.symm hr)⟩⟩

theorem snapshot_structural_mutation_isolated_witness :
    ((addProject initMem 0 [3, 4] ['i'] ['t'] ['d'] (JSNum.int 1)).2.map
      Prod.snd).Nodup :=
  (snapshot_structural_mutation_isolated initMem 0 [3, 4] ['i'] ['t'] ['d']
    (JSNum.int 1)
    (addProject initMem 0 [3, 4] ['i'] ['t'] ['d'] (JSNum.int 1)).1
    (addProject initMem 0 [3, 4] ['i'] ['t'] ['d'] (JSNum.int 1)).2
    rfl (by decide) (by decide)).1

/-- Length of a list is non-zero exactly when the list is non-empty. -/
theorem length_bne_zero (l : Str) : (l.length != 0) = !l.isEmpty := by
  cases l <;> rfl

/-- C5: `validate` returns true iff every configured applicable sub-check
passes — it equals the conjunction of the five spec-side checks (absent
checks vacuously true): `required` tests the trimmed string form for
non-emptiness, `minLength`/`maxLength` fire only on string values,
`min`/`max` only on number values; in particular a numeric value with a
`minLength` rule skips that rule (second conjunct).  `validate` is a pure
function of its argument. -/
theorem validate_is_conjunction_of_applicable_checks :
    (∀ v : Validatable,
      validate v
        = (requiredOk v && minLengthOk v && maxLengthOk v && minOk v
            && maxOk v)) ∧
    (∀ n ml : JSNum,
      validate { value := JSValue.num n, minLength := some ml } = true) := by
  constructor
  · intro v
    rcases v with ⟨val, req, minL, maxL, mn, mx⟩
    simp only [validate, requiredOk, minLengthOk, maxLengthOk, minOk, maxOk,
      length_bne_zero]
    rcases val with s | n <;>
      rcases req with _ | b <;>
      rcases minL with _ | a <;> rcases maxL with _ | b' <;>
      rcases mn with _ | c <;> rcases mx with _ | e <;>
      simp [Bool.and_assoc]
  · intro n ml
    rfl

/-- C6 counterexample: the handler does not trim.  The five-character
title `"  ab "` (trimmed form `"ab"`, length 2 < 5) passes validation on
its untrimmed length and is forwarded to the store still carrying its
leading and trailing whitespace. -/
theorem untrimmed_padded_title_accepted :
    getUserInput [' ', ' ', 'a', 'b', ' ']
        ['a', 'b', 'c', 'd', 'e', 'f', 'g', 'h', 'i', 'j'] ['3']
      = some ([' ', ' ', 'a', 'b', ' '],
          ['a', 'b', 'c', 'd', 'e', 'f', 'g', 'h', 'i', 'j'], JSNum.int 3) ∧
    jsTrim [' ', ' ', 'a', 'b', ' '] = ['a', 'b'] ∧
    (jsTrim [' ', ' ', 'a', 'b', ' ']).length < 5 := by
  decide

/-- C6 amended: the submit handler reads the three raw field values without
trimming (it only coerces the third to a number with `Number()`); whenever
it forwards values to the store, the forwarded title and description are
byte-for-byte the raw field contents, so padding is preserved and the
`minLength` rules are checked against untrimmed lengths (only the
`required` sub-check trims internally). -/
theorem getUserInput_forwards_raw_values (tf df pf : Str) (t d : Str)
    (p : JSNum) (h : getUserInput tf df pf = some (t, d, p)) :
    t = tf ∧ d = df ∧ p = jsNumberOfString pf := by
  simp only [getUserInput] at h
  split at h
  · exact absurd h (by simp)
  · simp only [Option.some.injEq, Prod.mk.injEq] at h
    exact ⟨h.1.symm, h.2.1.symm, h.2.2.symm⟩

theorem getUserInput_forwards_raw_values_witness :
    ['h', 'e', 'l', 'l', 'o'] = ['h', 'e', 'l', 'l', 'o'] ∧
    ['a', 'b', 'c', 'd', 'e', 'f', 'g', 'h', 'i', 'j']
      = ['a', 'b', 'c', 'd', 'e', 'f', 'g', 'h', 'i', 'j'] ∧
    JSNum.int 3 = jsNumberOfString ['3'] :=
  getUserInput_forwards_raw_values ['h', 'e', 'l', 'l', 'o']
    ['a', 'b', 'c', 'd', 'e', 'f', 'g', 'h', 'i', 'j'] ['3']
    ['h', 'e', 'l', 'l', 'o']
    ['a', 'b', 'c', 'd', 'e', 'f', 'g', 'h', 'i', 'j'] (JSNum.int 3)
    (by decide)

/-- C7 counterexample: in the `ProjectList` and `ProjectInput` constructors
`renderContent()` runs strictly before `configure()`, contradicting the
claimed setup → configure → renderContent ordering. -/
theorem render_precedes_configure_in_list_and_input :
    projectListCtorTrace.indexOf Phase.renderContent
      < projectListCtorTrace.indexOf Phase.configure ∧
    projectInputCtorTrace.indexOf Phase.renderContent
      < projectInputCtorTrace.indexOf Phase.configure := by
  decide

/-- C7 amended: every concrete view runs instantiate, attach, then its own
field setup, each exactly once; after field setup, `ProjectItem` calls
`configure()` before `renderContent()`, while `ProjectList` and
`ProjectInput` call `renderContent()` before `configure()` — each of the
two subclass hooks exactly once in all three views. -/
theorem lifecycle_phases_each_once_with_order :
    projectItemCtorTrace.count Phase.instantiate = 1 ∧
    projectItemCtorTrace.count Phase.attach = 1 ∧
    projectItemCtorTrace.count Phase.fieldSetup = 1 ∧
    projectItemCtorTrace.count Phase.configure = 1 ∧
    projectItemCtorTrace.count Phase.renderContent = 1 ∧
    projectItemCtorTrace.indexOf Phase.instantiate
      < projectItemCtorTrace.indexOf Phase.attach ∧
    projectItemCtorTrace.indexOf Phase.attach
      < projectItemCtorTrace.indexOf Phase.fieldSetup ∧
    projectItemCtorTrace.indexOf Phase.fieldSetup
      < projectItemCtorTrace.indexOf Phase.configure ∧
    projectItemCtorTrace.indexOf Phase.configure
      < projectItemCtorTrace.indexOf Phase.renderContent ∧
    projectListCtorTrace.count Phase.instantiate = 1 ∧
    projectListCtorTrace.count Phase.attach = 1 ∧
    projectListCtorTrace.count Phase.fieldSetup = 1 ∧
    projectListCtorTrace.count Phase.configure = 1 ∧
    projectListCtorTrace.count Phase.renderContent = 1 ∧
    projectListCtorTrace.indexOf Phase.instantiate
      < projectListCtorTrace.indexOf Phase.attach ∧
    projectListCtorTrace.indexOf Phase.attach
      < projectListCtorTrace.indexOf Phase.fieldSetup ∧
    projectListCtorTrace.indexOf Phase.fieldSetup
      < projectListCtorTrace.indexOf Phase.renderContent ∧
    projectListCtorTrace.indexOf Phase.renderContent
      < projectListCtorTrace.indexOf Phase.configure ∧
    projectInputCtorTrace.count Phase.instantiate = 1 ∧
    projectInputCtorTrace.count Phase.attach = 1 ∧
    projectInputCtorTrace.count Phase.fieldSetup = 1 ∧
    projectInputCtorTrace.count Phase.configure = 1 ∧
    projectInputCtorTrace.count Phase.renderContent = 1 ∧
    projectInputCtorTrace.indexOf Phase.instantiate
      < projectInputCtorTrace.indexOf Phase.attach ∧
    projectInputCtorTrace.indexOf Phase.attach
      < projectInputCtorTrace.indexOf Phase.fieldSetup ∧
    projectInputCtorTrace.indexOf Phase.fieldSetup
      < projectInputCtorTrace.indexOf Phase.renderContent ∧
    projectInputCtorTrace.indexOf Phase.renderContent
      < projectInputCtorTrace.indexOf Phase.configure := by
  decide

/-- C8: starting from the freshly constructed store, any sequence of
`addProject` calls whose environment-generated ids are pairwise distinct
(the spec's stated collision-freedom assumption on the random id source)
yields a store in which all projects carry pairwise distinct ids — an id
generated at creation is never reused for a later item. -/
theorem store_ids_pairwise_distinct (listeners : List Nat)
    (calls : List (Str × Str × Str × JSNum))
    (h : (calls.map fun c => c.1).Nodup) :
    ((viewArr (runAdds 0 listeners initMem calls) 0).map
      ProjectObj.id).Nodup := by
  obtain ⟨_, _, h3⟩ := runAdds_spec 0 listeners calls initMem
    (by decide) (by decide)
  rw [h3]
  have hinit : viewArr initMem 0 = [] := rfl
  rw [hinit]
  simp only [List.nil_append, List.map_map]
  exact h

theorem store_ids_pairwise_distinct_witness :
    ((viewArr (runAdds 0 [] initMem
      [(['a'], ['t'], ['d'], JSNum.int 1),
        (['b'], ['t'], ['d'], JSNum.int 2)]) 0).map ProjectObj.id).Nodup :=
  store_ids_pairwise_distinct []
    [(['a'], ['t'], ['d'], JSNum.int 1), (['b'], ['t'], ['d'], JSNum.int 2)]
    (by decide)

/-- C9: the filter a `ProjectList` listener applies to each snapshot keeps
exactly the matching statuses — the Active view's local snapshot never
contains a Finished item and the Finished view's never contains an Active
item — and the filtered snapshot is a sublist of the notification snapshot,
so the Store's insertion order is preserved for every notification in any
sequence of additions. -/
theorem listview_filter_matches_status_and_preserves_order
    (type : ProjectTypes) (l : List ProjectObj) :
    ((relevantProjects ProjectTypes.active l).all
      fun p => p.status == ProjectStatus.Active) = true ∧
    ((relevantProjects ProjectTypes.finished l).all
      fun p => p.status == ProjectStatus.Finished) = true ∧
    (relevantProjects type l).Sublist l := by
  refine ⟨?_, ?_, List.filter_sublist l⟩
  · rw [List.all_eq_true]
    intro p hp
    exact (List.mem_filter.mp hp).2
  · rw [List.all_eq_true]
    intro p hp
    exact (List.mem_filter.mp hp).2

/-- C10: the `required` sub-check always passes on a numeric value — a
number's string form (`"NaN"` included, `"0"` included) is never empty
after trimming — so `validate` on the people rule reduces to exactly its
`min`/`max` bounds, and the empty people input (which `Number()` coerces
to 0) is rejected by the `min 1` bound, not by `required`. -/
theorem numeric_required_always_passes :
    (∀ n : JSNum,
      validate { value := JSValue.num n, required := some true } = true) ∧
    jsNumberOfString [] = JSNum.int 0 ∧
    (∀ n : JSNum,
      validate (peopleRule n)
        = (jsGe n (JSNum.int 1) && jsLe n (JSNum.int 5))) ∧
    validate (peopleRule (JSNum.int 0)) = false ∧
    jsGe (JSNum.int 0) (JSNum.int 1) = false := by
  refine ⟨?_, by decide, ?_, by decide, by decide⟩
  · intro n
    show (true && ((jsTrim (jsNumToChars n)).length != 0)) = true
    rw [Bool.true_and]
    exact jsNumToChars_trim_length_ne n
  · intro n
    show (((true && ((jsTrim (jsNumToChars n)).length != 0))
        && jsGe n (JSNum.int 1)) && jsLe n (JSNum.int 5))
      = (jsGe n (JSNum.int 1) && jsLe n (JSNum.int 5))
    rw [Bool.true_and, jsNumToChars_trim_length_ne n, Bool.true_and]

end DnD
